import Mathlib

/-!
Shallow embedding of `buildapi_client/buildapi_client.py`, a thin client for
Mozilla Release Engineering's buildapi self-serve HTTP service.

Modelling conventions:
- Python dicts are association lists `List (String × α)` with insertion-order
  semantics: assigning to an existing key keeps its position, assigning a new
  key appends (`dictSet`); `d.update(u)` folds `dictSet` over `u`
  (`dictInsertAll`).
- Parsed JSON values are `JVal`; `json.dumps(.., sort_keys=True)` of a dict is
  modelled as the canonical value `FormVal.jdump (JVal.obj (sortEntries ..))`,
  where `sortEntries` sorts the entries by key in code-point order, exactly the
  order `sort_keys=True` uses for the string keys occurring here.
- Each operation returns the list of HTTP requests it issues (empty under
  dry-run) together with an `Except PyError` result; `Except.error` models an
  uncaught Python exception, `Except.ok` a normal return.  A `requests`
  response is `Response`: its status code and the result of `.json()`
  (`none` when the body does not parse, i.e. `.json()` raises `ValueError`).
- `requests.get`'s signature is `get(url, params=None, **kwargs)`: the first
  positional argument after the URL is `params`.  `HttpCall` therefore carries
  both an `auth` field (the `auth=` keyword) and a `params` field (the second
  positional slot), so that each call site records where the credentials
  actually went.
-/

/-- JSON values, as produced by `json.loads` and consumed by `json.dumps`. -/
inductive JVal where
  | str : String → JVal
  | num : Int → JVal
  | bool : Bool → JVal
  | null : JVal
  | arr : List JVal → JVal
  | obj : List (String × JVal) → JVal
deriving Repr

/-- Python dict lookup `d[k]` (as an `Option`): first binding of the key wins. -/
def dictLookup (d : List (String × α)) (k : String) : Option α :=
  match d with
  | [] => none
  | (k', v) :: rest => if k' = k then some v else dictLookup rest k

/-- Python dict assignment `d[k] = v`: overwrite in place if the key is
present, append otherwise. -/
def dictSet (d : List (String × α)) (k : String) (v : α) : List (String × α) :=
  match d with
  | [] => [(k, v)]
  | (k', v') :: rest => if k' = k then (k, v) :: rest else (k', v') :: dictSet rest k v

/-- Python `d.update(u)` / a loop of assignments: fold `dictSet` over `u`. -/
def dictInsertAll (d : List (String × α)) : List (String × α) → List (String × α)
  | [] => d
  | (k, v) :: rest => dictInsertAll (dictSet d k v) rest

/-- Keys of a dict, in insertion order (Python `d.keys()`). -/
def dictKeys (d : List (String × α)) : List String :=
  d.map Prod.fst

/-- Lexicographic comparison of character lists by code point, the order in
which `json.dumps(.., sort_keys=True)` emits string keys. -/
def charListLe : List Char → List Char → Bool
  | [], _ => true
  | _ :: _, [] => false
  | a :: as, b :: bs =>
    if a.toNat < b.toNat then true
    else if b.toNat < a.toNat then false
    else charListLe as bs

/-- Code-point order on strings. -/
def strLe (a b : String) : Bool :=
  charListLe a.data b.data

/-- Order on dict entries by key, used to model `sort_keys=True`. -/
def entryLe (a b : String × JVal) : Prop :=
  strLe a.1 b.1 = true

instance : DecidableRel entryLe :=
  fun a b => inferInstanceAs (Decidable (strLe a.1 b.1 = true))

/-- Entries of a dict sorted by key, i.e. the key order of
`json.dumps(d, sort_keys=True)`. -/
def sortEntries (l : List (String × JVal)) : List (String × JVal) :=
  l.insertionSort entryLe

/-- Python exceptions that the embedded code can raise. -/
inductive PyError where
  | buildapiAuthError : String → PyError
  | keyError : String → PyError
  | typeError : PyError
  | valueError : PyError
  | attributeError : String → PyError
deriving Repr, DecidableEq

/-- Python subscripting `v[k]` of a parsed JSON value by a string key:
`KeyError` on a dict without the key, `TypeError` on anything that is not a
dict. -/
def getItem (v : JVal) (k : String) : Except PyError JVal :=
  match v with
  | JVal.obj entries =>
    match dictLookup entries k with
    | some x => Except.ok x
    | none => Except.error (PyError.keyError k)
  | _ => Except.error PyError.typeError

/-- HTTP basic-auth credentials, passed through opaquely by the client. -/
structure Auth where
  user : String
  password : String
deriving Repr, DecidableEq

/-- HTTP method of an issued request. -/
inductive Method where
  | get
  | post
  | delete
deriving Repr, DecidableEq

/-- Values of a form-encoded request body: strings, integers, or the
serialization `json.dumps(v)` of a JSON value (written `jdump v`). -/
inductive FormVal where
  | s : String → FormVal
  | i : Int → FormVal
  | jdump : JVal → FormVal
deriving Repr

/-- One HTTP request as handed to the `requests` library.  `auth` is the
`auth=` keyword argument (basic-auth credentials); `params` is the second
positional argument of `requests.get` (query-string parameters). -/
structure HttpCall where
  method : Method
  url : String
  headers : List (String × String)
  data : Option (List (String × FormVal))
  auth : Option Auth
  params : Option Auth
deriving Repr

/-- A server response as seen through `requests`: the status code and the
result of `.json()` (`none` when the body is not valid JSON, in which case
`.json()` raises `ValueError`). -/
structure Response where
  status_code : Nat
  body : Option JVal
deriving Repr

def HOST_ROOT : String :=
  "https://secure.pub.build.mozilla.org/buildapi"

def SELF_SERVE : String :=
  HOST_ROOT ++ "/self-serve"

def DEFAULT_COUNT_NUM : Int := 1

def DEFAULT_PRIORITY : Int := 0

/-- Message of the `BuildapiAuthError` raised on HTTP 401. -/
def authFailMsg : String :=
  "Your credentials were invalid. Please try again."

/-- URL builder `_builders_api_url(repo_name, builder, revision)`. -/
def buildersApiUrl (repo_name builder revision : String) : String :=
  SELF_SERVE ++ "/" ++ repo_name ++ "/builders/" ++ builder ++ "/" ++ revision

/-- URL builder `_jobs_api_url(job_id)`. -/
def jobsApiUrl (job_id : String) : String :=
  SELF_SERVE ++ "/jobs/" ++ job_id

/-- Payload builder `_payload(repo_name, revision, files, extra_properties)`:
`properties` is `json.dumps` (keys sorted) of `{branch, revision}` updated
with `extra_properties or {}`; `files` is included only when the list is
non-empty and all entries are truthy (`files and all(files)`), a truthy string
being a non-empty one. -/
def payloadFor (repo_name revision : String) (files : List String)
    (extra_properties : Option (List (String × JVal))) : List (String × FormVal) :=
  let props : List (String × JVal) :=
    [("branch", JVal.str repo_name), ("revision", JVal.str revision)]
  let props := dictInsertAll props (extra_properties.getD [])
  let payload : List (String × FormVal) :=
    [("properties", FormVal.jdump (JVal.obj (sortEntries props)))]
  if files ≠ [] ∧ ∀ f ∈ files, f ≠ "" then
    dictSet payload "files" (FormVal.jdump (JVal.arr (files.map JVal.str)))
  else
    payload

/-- Embedding of `trigger_arbitrary_job`.  The Python signature defaults
`dry_run` to `False` (see `trigger_arbitrary_job_dry_run_default`).  When not
a dry run it posts to the builders URL with `auth=auth`; a 401 status raises
`BuildapiAuthError`; otherwise `req.json()` is attempted (a `ValueError` is
caught and turned into a `None` return) and `content["request_id"]` is read
for a debug log line, so a parsed body without that key raises `KeyError`
(or `TypeError` when the body is not a dict). -/
def trigger_arbitrary_job (repo_name builder revision : String) (auth : Auth)
    (files : List String) (dry_run : Bool)
    (extra_properties : Option (List (String × JVal))) (server : Response) :
    List HttpCall × Except PyError (Option Response) :=
  let url := buildersApiUrl repo_name builder revision
  let payload := payloadFor repo_name revision files extra_properties
  if dry_run then
    ([], Except.ok none)
  else
    let req := server
    let call : HttpCall :=
      { method := Method.post, url := url, headers := [("Accept", "application/json")],
        data := some payload, auth := some auth, params := none }
    let result : Except PyError (Option Response) :=
      if req.status_code = 401 then
        Except.error (PyError.buildapiAuthError authFailMsg)
      else
        match req.body with
        | some content =>
          match getItem content "request_id" with
          | Except.ok _ => Except.ok (some req)
          | Except.error e => Except.error e
        | none => Except.ok none
    ([call], result)

/-- Embedding of `make_retrigger_request`: POST to `{SELF_SERVE}/{repo}/request`
with payload `{request_id}` extended with `count` and `priority` only when one
of them differs from its default.  The response is returned unconditionally:
no status code, 401 included, raises. -/
def make_retrigger_request (repo_name request_id : String) (auth : Auth)
    (count priority : Int) (dry_run : Bool) (server : Response) :
    List HttpCall × Except PyError (Option Response) :=
  let url := SELF_SERVE ++ "/" ++ repo_name ++ "/request"
  let payload : List (String × FormVal) := [("request_id", FormVal.s request_id)]
  let payload :=
    if count ≠ DEFAULT_COUNT_NUM ∨ priority ≠ DEFAULT_PRIORITY then
      dictInsertAll payload [("count", FormVal.i count), ("priority", FormVal.i priority)]
    else
      payload
  if dry_run then
    ([], Except.ok none)
  else
    ([{ method := Method.post, url := url, headers := [("Accept", "application/json")],
        data := some payload, auth := some auth, params := none }],
     Except.ok (some server))

/-- Embedding of `make_cancel_request`: DELETE to
`{SELF_SERVE}/{repo}/request/{request_id}` with `auth=auth` and no body.  The
response is returned unconditionally: no status code raises. -/
def make_cancel_request (repo_name request_id : String) (auth : Auth)
    (dry_run : Bool) (server : Response) :
    List HttpCall × Except PyError (Option Response) :=
  let url := SELF_SERVE ++ "/" ++ repo_name ++ "/request/" ++ request_id
  if dry_run then
    ([], Except.ok none)
  else
    ([{ method := Method.delete, url := url, headers := [], data := none,
        auth := some auth, params := none }],
     Except.ok (some server))

/-- Embedding of `make_retrigger_build_request`: same shape as
`make_retrigger_request` but posting to `{SELF_SERVE}/{repo}/build` with key
`build_id`.  The response is returned unconditionally: no status code
raises. -/
def make_retrigger_build_request (repo_name build_id : String) (auth : Auth)
    (count priority : Int) (dry_run : Bool) (server : Response) :
    List HttpCall × Except PyError (Option Response) :=
  let url := SELF_SERVE ++ "/" ++ repo_name ++ "/build"
  let payload : List (String × FormVal) := [("build_id", FormVal.s build_id)]
  let payload :=
    if count ≠ DEFAULT_COUNT_NUM ∨ priority ≠ DEFAULT_PRIORITY then
      dictInsertAll payload [("count", FormVal.i count), ("priority", FormVal.i priority)]
    else
      payload
  if dry_run then
    ([], Except.ok none)
  else
    ([{ method := Method.post, url := url, headers := [("Accept", "application/json")],
        data := some payload, auth := some auth, params := none }],
     Except.ok (some server))

/-- Embedding of `make_query_repositories_request`: GET
`{SELF_SERVE}/branches?format=json` with `auth=auth`; 401 raises
`BuildapiAuthError`, otherwise the parsed body is returned (`.json()` raises
`ValueError` on an unparsable body). -/
def make_query_repositories_request (auth : Auth) (dry_run : Bool)
    (server : Response) : List HttpCall × Except PyError (Option JVal) :=
  let url := SELF_SERVE ++ "/branches?format=json"
  if dry_run then
    ([], Except.ok none)
  else
    let call : HttpCall :=
      { method := Method.get, url := url, headers := [], data := none,
        auth := some auth, params := none }
    let result : Except PyError (Option JVal) :=
      if server.status_code = 401 then
        Except.error (PyError.buildapiAuthError authFailMsg)
      else
        match server.body with
        | some v => Except.ok (some v)
        | none => Except.error PyError.valueError
    ([call], result)

/-- Embedding of `query_jobs_schedule`.  The source calls
`requests.get(url, auth)`: the credentials are passed as the second
positional argument of `requests.get`, which is `params`, not `auth` — the
call therefore carries `auth := none, params := some auth`.  A non-200 status
returns `[]`; on 200 the parsed body is returned (`.json()` raises
`ValueError` on an unparsable body, and nothing catches it). -/
def query_jobs_schedule (repo_name revision : String) (auth : Auth)
    (server : Response) : List HttpCall × Except PyError JVal :=
  let url := SELF_SERVE ++ "/" ++ repo_name ++ "/rev/" ++ revision ++ "?format=json"
  let call : HttpCall :=
    { method := Method.get, url := url, headers := [], data := none,
      auth := none, params := some auth }
  let result : Except PyError JVal :=
    if server.status_code ≠ 200 then
      Except.ok (JVal.arr [])
    else
      match server.body with
      | some v => Except.ok v
      | none => Except.error PyError.valueError
  ([call], result)

/-- Embedding of `query_jobs_url`: a pure URL builder. -/
def query_jobs_url (repo_name revision : String) : String :=
  SELF_SERVE ++ "/" ++ repo_name ++ "/rev/" ++ revision

/-- The reduction loop of `query_pending_jobs`: for each repo in `repo_list`,
`data[repo] = {}` and then every `(revision, jobs)` pair of
`raw['pending'][repo].iteritems()` is copied into `data[repo]`.  A repo whose
pending value is not a dict makes `.iteritems()` raise `AttributeError`. -/
def buildData (pend : List (String × JVal)) :
    List String → List (String × JVal) → Except PyError (List (String × JVal))
  | [], data => Except.ok data
  | repo :: rest, data =>
    let data := dictSet data repo (JVal.obj [])
    match dictLookup pend repo with
    | none => Except.error (PyError.keyError repo)
    | some (JVal.obj entries) =>
      buildData pend rest (dictSet data repo (JVal.obj (dictInsertAll [] entries)))
    | some _ => Except.error (PyError.attributeError "iteritems")

/-- Embedding of `query_pending_jobs`: GET `{HOST_ROOT}/pending?format=json`
with `auth=auth`; non-200 returns `[]`; `return_raw` returns the parsed body
unmodified; otherwise the `pending` sub-dict is reduced, restricted to
`repo_name` only when that argument is truthy (a non-empty string) and present
among the pending keys. -/
def query_pending_jobs (auth : Auth) (repo_name : Option String)
    (return_raw : Bool) (server : Response) :
    List HttpCall × Except PyError JVal :=
  let url := HOST_ROOT ++ "/pending?format=json"
  let call : HttpCall :=
    { method := Method.get, url := url, headers := [], data := none,
      auth := some auth, params := none }
  let result : Except PyError JVal :=
    if server.status_code ≠ 200 then
      Except.ok (JVal.arr [])
    else
      match server.body with
      | none => Except.error PyError.valueError
      | some raw =>
        if return_raw then
          Except.ok raw
        else
          match getItem raw "pending" with
          | Except.error e => Except.error e
          | Except.ok (JVal.obj pend) =>
            let repo_list : List String :=
              match repo_name with
              | some rn => if rn ≠ "" ∧ rn ∈ dictKeys pend then [rn] else dictKeys pend
              | none => dictKeys pend
            (match buildData pend repo_list [] with
             | Except.ok data => Except.ok (JVal.obj data)
             | Except.error e => Except.error e)
          | Except.ok _ => Except.error (PyError.attributeError "keys")
  ([call], result)

/-- Default of the `dry_run` parameter in the Python signature of
`trigger_arbitrary_job` (`dry_run=False`). -/
def trigger_arbitrary_job_dry_run_default : Bool := false

/-- Default of the `dry_run` parameter in the Python signature of
`make_retrigger_request` (`dry_run=True`). -/
def make_retrigger_request_dry_run_default : Bool := true

/-- Default of the `dry_run` parameter in the Python signature of
`make_cancel_request` (`dry_run=True`). -/
def make_cancel_request_dry_run_default : Bool := true

/-- Default of the `dry_run` parameter in the Python signature of
`make_retrigger_build_request` (`dry_run=True`). -/
def make_retrigger_build_request_dry_run_default : Bool := true

/-- Default of the `dry_run` parameter in the Python signature of
`make_query_repositories_request` (`dry_run=True`). -/
def make_query_repositories_request_dry_run_default : Bool := true

/-! Helper lemmas about the embedded Python-dict and key-order operations. -/

theorem charListLe_total (a b : List Char) :
    charListLe a b = true ∨ charListLe b a = true := by
  induction a generalizing b with
  | nil => left; rfl
  | cons x xs ih =>
    cases b with
    | nil => right; rfl
    | cons y ys =>
      by_cases h1 : x.toNat < y.toNat
      · left; simp [charListLe, h1]
      · by_cases h2 : y.toNat < x.toNat
        · right; simp [charListLe, h2]
        · rcases ih ys with h | h
          · left; simp [charListLe, h1, h2, h]
          · right; simp [charListLe, h1, h2, h]

theorem charListLe_trans {a b c : List Char} (hab : charListLe a b = true)
    (hbc : charListLe b c = true) : charListLe a c = true := by
  induction a generalizing b c with
  | nil => rfl
  | cons x xs ih =>
    cases b with
    | nil => exact absurd hab (by simp [charListLe])
    | cons y ys =>
      cases c with
      | nil => exact absurd hbc (by simp [charListLe])
      | cons z zs =>
        simp only [charListLe] at hab hbc ⊢
        rcases Nat.lt_trichotomy x.toNat y.toNat with hxy | hxy | hxy
        · rcases Nat.lt_trichotomy y.toNat z.toNat with hyz | hyz | hyz
          · simp [Nat.lt_trans hxy hyz]
          · simp [hyz ▸ hxy]
          · rw [if_neg (Nat.lt_asymm hyz), if_pos hyz] at hbc; exact absurd hbc (by simp)
        · rw [if_neg (hxy ▸ Nat.lt_irrefl _), if_neg (hxy ▸ Nat.lt_irrefl _)] at hab
          rcases Nat.lt_trichotomy y.toNat z.toNat with hyz | hyz | hyz
          · simp [hxy ▸ hyz]
          · rw [if_neg (hyz ▸ Nat.lt_irrefl _), if_neg (hyz ▸ Nat.lt_irrefl _)] at hbc
            have h1 : ¬ x.toNat < z.toNat := by omega
            have h2 : ¬ z.toNat < x.toNat := by omega
            rw [if_neg h1, if_neg h2]
            exact ih hab hbc
          · rw [if_neg (Nat.lt_asymm hyz), if_pos hyz] at hbc; exact absurd hbc (by simp)
        · rw [if_neg (Nat.lt_asymm hxy), if_pos hxy] at hab; exact absurd hab (by simp)

theorem sortEntries_pairwise (l : List (String × JVal)) :
    List.Pairwise entryLe (sortEntries l) :=
  @List.sorted_insertionSort (String × JVal) entryLe _
    ⟨fun a b => charListLe_total a.1.data b.1.data⟩
    ⟨fun _ _ _ h1 h2 => charListLe_trans h1 h2⟩ l

theorem mem_sortEntries {l : List (String × JVal)} {p : String × JVal}
    (h : p ∈ l) : p ∈ sortEntries l :=
  (List.perm_insertionSort entryLe l).symm.subset h

theorem mem_dictSet_of_ne {α : Type} {d : List (String × α)} {k' k : String}
    {v' : α} (v : α) (hne : k' ≠ k) (h : (k', v') ∈ d) :
    (k', v') ∈ dictSet d k v := by
  induction d with
  | nil => simp at h
  | cons p rest ih =>
    obtain ⟨k0, v0⟩ := p
    rw [List.mem_cons] at h
    by_cases hk : k0 = k
    · simp only [dictSet, if_pos hk]
      rcases h with h | h
      · obtain ⟨h1, _⟩ := Prod.mk.injEq .. ▸ h
        exact absurd (h1.trans hk) hne
      · exact List.mem_cons_of_mem _ h
    · simp only [dictSet, if_neg hk]
      rcases h with h | h
      · exact h ▸ List.mem_cons_self _ _
      · exact List.mem_cons_of_mem _ (ih h)

theorem dictSet_append_of_not_mem {α : Type} {d : List (String × α)} {k : String}
    (v : α) (h : k ∉ dictKeys d) : dictSet d k v = d ++ [(k, v)] := by
  induction d with
  | nil => rfl
  | cons p rest ih =>
    obtain ⟨k0, v0⟩ := p
    simp only [dictKeys, List.map_cons, List.mem_cons] at h
    push_neg at h
    simp only [dictSet, if_neg (Ne.symm h.1)]
    rw [ih (by simpa [dictKeys] using h.2)]
    simp

theorem dictSet_dictSet {α : Type} (d : List (String × α)) (k : String) (x v : α) :
    dictSet (dictSet d k x) k v = dictSet d k v := by
  induction d with
  | nil => simp [dictSet]
  | cons p rest ih =>
    obtain ⟨k0, v0⟩ := p
    by_cases hk : k0 = k
    · simp [dictSet, hk]
    · simp [dictSet, hk, ih]

theorem dictLookup_mem_keys {α : Type} {d : List (String × α)} {k : String} {v : α}
    (h : dictLookup d k = some v) : k ∈ dictKeys d := by
  induction d with
  | nil => simp [dictLookup] at h
  | cons p rest ih =>
    obtain ⟨k0, v0⟩ := p
    simp only [dictLookup] at h
    simp only [dictKeys, List.map_cons, List.mem_cons]
    by_cases hk : k0 = k
    · exact Or.inl hk.symm
    · rw [if_neg hk] at h
      exact Or.inr (by simpa [dictKeys] using ih h)

theorem dictLookup_of_mem_nodup {α : Type} {d : List (String × α)} {k : String}
    {v : α} (hnd : (dictKeys d).Nodup) (h : (k, v) ∈ d) :
    dictLookup d k = some v := by
  induction d with
  | nil => simp at h
  | cons p rest ih =>
    obtain ⟨k0, v0⟩ := p
    simp only [dictKeys, List.map_cons, List.nodup_cons] at hnd
    rw [List.mem_cons] at h
    rcases h with h | h
    · obtain ⟨h1, h2⟩ := Prod.mk.injEq .. ▸ h
      subst h1; subst h2
      simp [dictLookup]
    · have hne : k0 ≠ k := by
        intro he
        subst he
        exact hnd.1 (by simpa [dictKeys] using List.mem_map_of_mem Prod.fst h)
      simp only [dictLookup, if_neg hne]
      exact ih hnd.2 h

theorem mem_dictInsertAll {α : Type} {upd : List (String × α)} {d : List (String × α)}
    {k : String} {v : α} (h : (k, v) ∈ d) (hk : k ∉ dictKeys upd) :
    (k, v) ∈ dictInsertAll d upd := by
  induction upd generalizing d with
  | nil => exact h
  | cons p rest ih =>
    obtain ⟨k0, v0⟩ := p
    simp only [dictKeys, List.map_cons, List.mem_cons] at hk
    push_neg at hk
    exact ih (mem_dictSet_of_ne v0 hk.1 h) (by simpa [dictKeys] using hk.2)

theorem dictInsertAll_append {α : Type} {m : List (String × α)} :
    ∀ {d : List (String × α)}, (∀ k ∈ dictKeys m, k ∉ dictKeys d) →
      (dictKeys m).Nodup → dictInsertAll d m = d ++ m := by
  induction m with
  | nil =>
    intro d _ _
    simp [dictInsertAll]
  | cons p rest ih =>
    intro d hdisj hnd
    obtain ⟨k0, v0⟩ := p
    simp only [dictKeys, List.map_cons, List.nodup_cons] at hnd
    simp only [dictInsertAll]
    rw [dictSet_append_of_not_mem v0 (hdisj k0 (by simp [dictKeys]))]
    rw [ih ?disj hnd.2]
    · simp
    case disj =>
      intro k hkm
      have hk0 : k ≠ k0 := by
        intro he
        subst he
        exact hnd.1 (by simpa [dictKeys] using hkm)
      have hkd : k ∉ dictKeys d := by
        refine hdisj k ?_
        simp only [dictKeys, List.map_cons, List.mem_cons]
        exact Or.inr (by simpa [dictKeys] using hkm)
      intro hmem
      simp only [dictKeys, List.map_append, List.map_cons, List.map_nil] at hmem
      rcases List.mem_append.mp hmem with hm | hm
      · exact hkd (by simpa [dictKeys] using hm)
      · rcases List.mem_cons.mp hm with he | he
        · exact hk0 he
        · simp at he

theorem dictInsertAll_self {α : Type} {m : List (String × α)}
    (hnd : (dictKeys m).Nodup) : dictInsertAll [] m = m := by
  have h := @dictInsertAll_append α m [] (by simp [dictKeys]) hnd
  simpa using h

theorem getItem_error_cases {v : JVal} {k : String} {e : PyError}
    (h : getItem v k = Except.error e) :
    e = PyError.keyError k ∨ e = PyError.typeError := by
  cases v with
  | obj entries =>
    simp only [getItem] at h
    cases hl : dictLookup entries k with
    | some x => rw [hl] at h; simp at h
    | none =>
      rw [hl] at h
      simp only [Except.error.injEq] at h
      exact Or.inl h.symm
  | str s => simp only [getItem, Except.error.injEq] at h; exact Or.inr h.symm
  | num n => simp only [getItem, Except.error.injEq] at h; exact Or.inr h.symm
  | bool b => simp only [getItem, Except.error.injEq] at h; exact Or.inr h.symm
  | null => simp only [getItem, Except.error.injEq] at h; exact Or.inr h.symm
  | arr l => simp only [getItem, Except.error.injEq] at h; exact Or.inr h.symm

/-! Claim theorems. -/

/-- C1 counterexample: `make_retrigger_request` called with `dry_run=False` on a
server that answers HTTP 401 does not raise `BuildapiAuthError`; it returns the
response object, because the function never inspects the status code. -/
theorem retrigger_401_returns_response :
    (make_retrigger_request "repo" "1234567" { user := "u", password := "p" }
        DEFAULT_COUNT_NUM DEFAULT_PRIORITY false { status_code := 401, body := none }).2 =
      Except.ok (some { status_code := 401, body := none }) := rfl

/-- C1 (amended): with `dry_run=False`, `trigger_arbitrary_job` raises
`BuildapiAuthError` exactly when the status code is 401, while
`make_retrigger_request`, `make_retrigger_build_request` and
`make_cancel_request` return the response for every status code, 401
included, and never raise. -/
theorem mutating_401_behavior (repo builder revision rid bid : String) (auth : Auth)
    (files : List String) (extra : Option (List (String × JVal)))
    (count priority : Int) (server : Response) :
    ((trigger_arbitrary_job repo builder revision auth files false extra server).2 =
        Except.error (PyError.buildapiAuthError authFailMsg) ↔
      server.status_code = 401) ∧
    (make_retrigger_request repo rid auth count priority false server).2 =
      Except.ok (some server) ∧
    (make_retrigger_build_request repo bid auth count priority false server).2 =
      Except.ok (some server) ∧
    (make_cancel_request repo rid auth false server).2 = Except.ok (some server) := by
  refine ⟨?_, rfl, rfl, rfl⟩
  rcases server with ⟨sc, body⟩
  by_cases h : sc = 401
  · simp [trigger_arbitrary_job, h]
  · cases body with
    | none => simp [trigger_arbitrary_job, h]
    | some content =>
      cases hg : getItem content "request_id" with
      | ok x => simp [trigger_arbitrary_job, h, hg]
      | error e =>
        rcases getItem_error_cases hg with he | he <;> subst he <;>
          simp [trigger_arbitrary_job, h, hg]

/-- C2 counterexample: the `dry_run` parameter of `trigger_arbitrary_job`
defaults to `False` in the Python signature, not `True`. -/
theorem trigger_dry_run_default_is_false :
    trigger_arbitrary_job_dry_run_default ≠ true := by
  decide

/-- C2 (amended): `make_retrigger_request`, `make_cancel_request`,
`make_retrigger_build_request` and `make_query_repositories_request` default
`dry_run` to `True`, but `trigger_arbitrary_job` defaults it to `False`. -/
theorem dry_run_default_values :
    trigger_arbitrary_job_dry_run_default = false ∧
    make_retrigger_request_dry_run_default = true ∧
    make_cancel_request_dry_run_default = true ∧
    make_retrigger_build_request_dry_run_default = true ∧
    make_query_repositories_request_dry_run_default = true := by
  decide

/-- C3: `query_jobs_schedule` issues its GET with the credentials in the
`params` position (the second positional argument of `requests.get`), not in
the `auth` position, so they are not sent as basic-auth credentials: the
emitted call has `auth = none` and `params = some auth`. -/
theorem schedule_auth_sent_as_params (repo revision : String) (auth : Auth)
    (server : Response) :
    (query_jobs_schedule repo revision auth server).1 =
      [{ method := Method.get,
         url := SELF_SERVE ++ "/" ++ repo ++ "/rev/" ++ revision ++ "?format=json",
         headers := [], data := none, auth := none, params := some auth }] := rfl

/-- C5: every mutating operation called with `dry_run=True` issues zero HTTP
calls and returns `None`, for every input, and never fails. -/
theorem dry_run_no_network (repo builder revision rid bid : String) (auth : Auth)
    (files : List String) (extra : Option (List (String × JVal)))
    (count priority : Int) (server : Response) :
    trigger_arbitrary_job repo builder revision auth files true extra server =
      ([], Except.ok none) ∧
    make_retrigger_request repo rid auth count priority true server =
      ([], Except.ok none) ∧
    make_retrigger_build_request repo bid auth count priority true server =
      ([], Except.ok none) ∧
    make_cancel_request repo rid auth true server = ([], Except.ok none) :=
  ⟨rfl, rfl, rfl, rfl⟩

/-- C8 counterexample: a 200 response whose body does not parse as JSON makes
`query_jobs_schedule` raise `ValueError` (nothing catches the `req.json()`
failure), so the claim that neither case raises is false. -/
theorem schedule_unparsable_body_raises :
    (query_jobs_schedule "repo" "rev" { user := "u", password := "p" }
        { status_code := 200, body := none }).2 = Except.error PyError.valueError := rfl

/-- C8 (amended): `query_jobs_schedule` returns the empty sequence on every
non-200 status without raising, and returns the parsed body on a 200 status
whose body parses as JSON; only a 200 response with an unparsable body
raises (`ValueError`). -/
theorem schedule_status_result (repo revision : String) (auth : Auth)
    (server : Response) :
    (server.status_code ≠ 200 →
      (query_jobs_schedule repo revision auth server).2 = Except.ok (JVal.arr [])) ∧
    (∀ v, server.status_code = 200 → server.body = some v →
      (query_jobs_schedule repo revision auth server).2 = Except.ok v) := by
  constructor
  · intro h
    simp [query_jobs_schedule, h]
  · intro v h hb
    simp [query_jobs_schedule, h, hb]

/-- C8 witness: the amended theorem applied at a 404 response and at a 200
response with body `null`. -/
theorem schedule_status_result_witness :
    (query_jobs_schedule "repo" "rev" { user := "u", password := "p" }
        { status_code := 404, body := none }).2 = Except.ok (JVal.arr []) ∧
    (query_jobs_schedule "repo" "rev" { user := "u", password := "p" }
        { status_code := 200, body := some JVal.null }).2 = Except.ok JVal.null :=
  ⟨(schedule_status_result "repo" "rev" { user := "u", password := "p" }
      { status_code := 404, body := none }).1 (by decide),
   (schedule_status_result "repo" "rev" { user := "u", password := "p" }
      { status_code := 200, body := some JVal.null }).2 JVal.null rfl rfl⟩

/-- C10: with `dry_run=False` and a 200 response whose body parses as JSON but
has no `request_id` key, `trigger_arbitrary_job` raises an uncaught
`KeyError`; by contrast an unparsable body is a caught `ValueError` and
degrades to the `None` return. -/
theorem trigger_keyerror_on_missing_request_id :
    (trigger_arbitrary_job "repo" "builder" "rev" { user := "u", password := "p" }
        [] false none
        { status_code := 200, body := some (JVal.obj [("msg", JVal.str "Ok")]) }).2 =
      Except.error (PyError.keyError "request_id") ∧
    (trigger_arbitrary_job "repo" "builder" "rev" { user := "u", password := "p" }
        [] false none { status_code := 200, body := none }).2 = Except.ok none :=
  ⟨rfl, rfl⟩

/-- C9: the payload built for `trigger_arbitrary_job` contains a `files` field
if and only if the `files` sequence is non-empty and every element is truthy
(a non-empty string); otherwise the field is absent. -/
theorem payload_files_iff_truthy (repo revision : String) (files : List String)
    (extra : Option (List (String × JVal))) :
    ("files" ∈ dictKeys (payloadFor repo revision files extra) ↔
      files ≠ [] ∧ ∀ f ∈ files, f ≠ "") := by
  by_cases hf : files ≠ [] ∧ ∀ f ∈ files, f ≠ ""
  · simp only [payloadFor, if_pos hf]
    exact iff_of_true (by simp [dictSet, dictKeys]) hf
  · simp only [payloadFor, if_neg hf]
    exact iff_of_false (by simp [dictKeys]) hf

/-- C6: with defaults `count = 1` and `priority = 0` the retrigger payload
holds the target id key only, and the call goes to the corresponding path;
whenever either differs from its default, the payload holds the target id
together with both `count` and `priority` at their supplied values.  This is
stated for `make_retrigger_request` (`request_id`, path `.../request`) and
symmetrically for `make_retrigger_build_request` (`build_id`,
path `.../build`). -/
theorem retrigger_payload_shape (repo rid bid : String) (auth : Auth)
    (count priority : Int) (server : Response) :
    (count = DEFAULT_COUNT_NUM ∧ priority = DEFAULT_PRIORITY →
      (make_retrigger_request repo rid auth count priority false server).1 =
        [{ method := Method.post, url := SELF_SERVE ++ "/" ++ repo ++ "/request",
           headers := [("Accept", "application/json")],
           data := some [("request_id", FormVal.s rid)],
           auth := some auth, params := none }] ∧
      (make_retrigger_build_request repo bid auth count priority false server).1 =
        [{ method := Method.post, url := SELF_SERVE ++ "/" ++ repo ++ "/build",
           headers := [("Accept", "application/json")],
           data := some [("build_id", FormVal.s bid)],
           auth := some auth, params := none }]) ∧
    (count ≠ DEFAULT_COUNT_NUM ∨ priority ≠ DEFAULT_PRIORITY →
      (make_retrigger_request repo rid auth count priority false server).1 =
        [{ method := Method.post, url := SELF_SERVE ++ "/" ++ repo ++ "/request",
           headers := [("Accept", "application/json")],
           data := some [("request_id", FormVal.s rid), ("count", FormVal.i count),
                         ("priority", FormVal.i priority)],
           auth := some auth, params := none }] ∧
      (make_retrigger_build_request repo bid auth count priority false server).1 =
        [{ method := Method.post, url := SELF_SERVE ++ "/" ++ repo ++ "/build",
           headers := [("Accept", "application/json")],
           data := some [("build_id", FormVal.s bid), ("count", FormVal.i count),
                         ("priority", FormVal.i priority)],
           auth := some auth, params := none }]) := by
  constructor
  · rintro ⟨h1, h2⟩
    subst h1
    subst h2
    exact ⟨rfl, rfl⟩
  · intro h
    constructor
    · simp only [make_retrigger_request, if_pos h]
      rfl
    · simp only [make_retrigger_build_request, if_pos h]
      rfl

/-- C6 witness: the theorem applied with both parameters at their defaults and
with `count = 10`. -/
theorem retrigger_payload_shape_witness :
    (make_retrigger_request "repo" "42" { user := "u", password := "p" } 1 0 false
        { status_code := 200, body := none }).1 =
      [{ method := Method.post, url := SELF_SERVE ++ "/" ++ "repo" ++ "/request",
         headers := [("Accept", "application/json")],
         data := some [("request_id", FormVal.s "42")],
         auth := some { user := "u", password := "p" }, params := none }] ∧
    (make_retrigger_request "repo" "42" { user := "u", password := "p" } 10 0 false
        { status_code := 200, body := none }).1 =
      [{ method := Method.post, url := SELF_SERVE ++ "/" ++ "repo" ++ "/request",
         headers := [("Accept", "application/json")],
         data := some [("request_id", FormVal.s "42"), ("count", FormVal.i 10),
                       ("priority", FormVal.i 0)],
         auth := some { user := "u", password := "p" }, params := none }] :=
  ⟨((retrigger_payload_shape "repo" "42" "42" { user := "u", password := "p" } 1 0
      { status_code := 200, body := none }).1 ⟨rfl, rfl⟩).1,
   ((retrigger_payload_shape "repo" "42" "42" { user := "u", password := "p" } 10 0
      { status_code := 200, body := none }).2 (Or.inl (by decide))).1⟩

/-- C4 counterexample: with `extra_properties = {"branch": "other"}` the
properties object binds `branch` to `"other"` rather than to the repo name
(`props.update(extra_properties)` overrides the mandatory pair), so the
claim's quantification over every `extra_properties` fails. -/
theorem payload_branch_overridden :
    dictLookup (payloadFor "repo" "rev" [] (some [("branch", JVal.str "other")]))
        "properties" =
      some (FormVal.jdump (JVal.obj
        [("branch", JVal.str "other"), ("revision", JVal.str "rev")])) ∧
    ("branch", JVal.str "repo") ∉
      [("branch", JVal.str "other"), ("revision", JVal.str "rev")] := by
  refine ⟨rfl, ?_⟩
  simp

/-- C4 (amended): for every input whose `extra_properties` does not itself bind
the keys `branch` or `revision`, `trigger_arbitrary_job` with `dry_run=False`
issues exactly one POST to `{SELF_SERVE}/{repo}/builders/{builder}/{revision}`
whose `properties` form field is the JSON object, keys sorted, containing at
least `branch = repo_name` and `revision = revision`. -/
theorem trigger_post_properties (repo builder revision : String) (auth : Auth)
    (files : List String) (extra : Option (List (String × JVal))) (server : Response)
    (hb : "branch" ∉ dictKeys (extra.getD []))
    (hr : "revision" ∉ dictKeys (extra.getD [])) :
    ∃ props : List (String × JVal),
      (trigger_arbitrary_job repo builder revision auth files false extra server).1 =
        [{ method := Method.post, url := buildersApiUrl repo builder revision,
           headers := [("Accept", "application/json")],
           data := some (payloadFor repo revision files extra),
           auth := some auth, params := none }] ∧
      dictLookup (payloadFor repo revision files extra) "properties" =
        some (FormVal.jdump (JVal.obj props)) ∧
      ("branch", JVal.str repo) ∈ props ∧
      ("revision", JVal.str revision) ∈ props ∧
      List.Pairwise entryLe props := by
  refine ⟨sortEntries (dictInsertAll
      [("branch", JVal.str repo), ("revision", JVal.str revision)] (extra.getD [])),
    rfl, ?_, ?_, ?_, sortEntries_pairwise _⟩
  · by_cases hf : files ≠ [] ∧ ∀ f ∈ files, f ≠ ""
    · simp only [payloadFor, if_pos hf]
      rfl
    · simp only [payloadFor, if_neg hf]
      rfl
  · exact mem_sortEntries (mem_dictInsertAll (by simp) hb)
  · exact mem_sortEntries (mem_dictInsertAll (by simp) hr)

/-- C4 witness: the amended theorem applied at concrete inputs with no extra
properties. -/
theorem trigger_post_properties_witness :
    ∃ props : List (String × JVal),
      (trigger_arbitrary_job "repo" "builder" "rev" { user := "u", password := "p" }
          [] false none { status_code := 200, body := some JVal.null }).1 =
        [{ method := Method.post, url := buildersApiUrl "repo" "builder" "rev",
           headers := [("Accept", "application/json")],
           data := some (payloadFor "repo" "rev" [] none),
           auth := some { user := "u", password := "p" }, params := none }] ∧
      dictLookup (payloadFor "repo" "rev" [] none) "properties" =
        some (FormVal.jdump (JVal.obj props)) ∧
      ("branch", JVal.str "repo") ∈ props ∧
      ("revision", JVal.str "rev") ∈ props ∧
      List.Pairwise entryLe props :=
  trigger_post_properties "repo" "builder" "rev" { user := "u", password := "p" }
    [] none { status_code := 200, body := some JVal.null }
    (by simp [dictKeys]) (by simp [dictKeys])

theorem buildData_append (pend : List (String × JVal)) :
    ∀ (rem data : List (String × JVal)),
      (∀ p ∈ rem, dictLookup pend p.1 = some p.2) →
      (∀ p ∈ rem, ∃ m, p.2 = JVal.obj m ∧ (dictKeys m).Nodup) →
      (∀ p ∈ rem, p.1 ∉ dictKeys data) →
      (dictKeys rem).Nodup →
      buildData pend (dictKeys rem) data = Except.ok (data ++ rem) := by
  intro rem
  induction rem with
  | nil =>
    intro data _ _ _ _
    simp [dictKeys, buildData]
  | cons p rest ih =>
    intro data hsub hvals hdisj hnd
    obtain ⟨k, v⟩ := p
    simp only [dictKeys, List.map_cons, List.nodup_cons] at hnd
    have hk : dictLookup pend k = some v := hsub (k, v) (List.mem_cons_self _ _)
    obtain ⟨m, hm, hmnd⟩ := hvals (k, v) (List.mem_cons_self _ _)
    subst hm
    simp only [dictKeys, List.map_cons]
    simp only [buildData, hk]
    rw [dictInsertAll_self hmnd, dictSet_dictSet,
      dictSet_append_of_not_mem _ (hdisj (k, JVal.obj m) (List.mem_cons_self _ _))]
    have hstep := ih (data ++ [(k, JVal.obj m)])
      (fun q hq => hsub q (List.mem_cons_of_mem _ hq))
      (fun q hq => hvals q (List.mem_cons_of_mem _ hq))
      ?disj hnd.2
    · rw [show List.map Prod.fst rest = dictKeys rest from rfl, hstep]
      simp
    case disj =>
      intro q hq
      have hq1 : q.1 ∈ dictKeys rest := by
        simpa [dictKeys] using List.mem_map_of_mem Prod.fst hq
      have hqk : q.1 ≠ k := by
        intro he
        exact hnd.1 (by simpa [dictKeys, he] using hq1)
      have hqd : q.1 ∉ dictKeys data := hdisj q (List.mem_cons_of_mem _ hq)
      intro hmem
      simp only [dictKeys, List.map_append, List.map_cons, List.map_nil] at hmem
      rcases List.mem_append.mp hmem with hm2 | hm2
      · exact hqd (by simpa [dictKeys] using hm2)
      · rcases List.mem_cons.mp hm2 with he | he
        · exact hqk he
        · simp at he

theorem buildData_self (pend : List (String × JVal))
    (hnd : (dictKeys pend).Nodup)
    (hvals : ∀ p ∈ pend, ∃ m, p.2 = JVal.obj m ∧ (dictKeys m).Nodup) :
    buildData pend (dictKeys pend) [] = Except.ok pend := by
  have h := buildData_append pend pend []
    (fun p hp => dictLookup_of_mem_nodup hnd hp) hvals
    (fun p _ => by simp [dictKeys]) hnd
  simpa using h

/-- C7 counterexample: with `repo_name = ""` present among the pending keys,
`query_pending_jobs` does not restrict the result to that repo: the empty
string is falsy in Python (`if repo_name and ...`), so the reduction keeps
every repo of the response. -/
theorem pending_falsy_repo_name :
    (query_pending_jobs { user := "u", password := "p" } (some "") false
        { status_code := 200, body := some (JVal.obj [("pending",
            JVal.obj [("", JVal.obj []), ("repoB", JVal.obj [])])]) }).2 =
      Except.ok (JVal.obj [("", JVal.obj []), ("repoB", JVal.obj [])]) ∧
    (query_pending_jobs { user := "u", password := "p" } (some "") false
        { status_code := 200, body := some (JVal.obj [("pending",
            JVal.obj [("", JVal.obj []), ("repoB", JVal.obj [])])]) }).2 ≠
      Except.ok (JVal.obj [("", JVal.obj [])]) := by
  refine ⟨rfl, fun h => ?_⟩
  have h0 : (query_pending_jobs { user := "u", password := "p" } (some "") false
      { status_code := 200, body := some (JVal.obj [("pending",
          JVal.obj [("", JVal.obj []), ("repoB", JVal.obj [])])]) }).2 =
      Except.ok (JVal.obj [("", JVal.obj []), ("repoB", JVal.obj [])]) := rfl
  rw [h0] at h
  simp at h

/-- C7 (amended): for every 200 response whose parsed body has the shape
`{pending: {repo -> {revision -> job-list}}}`, `query_pending_jobs` with
`return_raw=True` returns the body unmodified; with `return_raw=False` and a
truthy (non-empty) `repo_name` present among the pending keys it returns
exactly the single-repo mapping; and when `repo_name` is `None` or absent
from the pending keys the returned mapping is the whole pending map,
including every repo of the response. -/
theorem pending_jobs_reduction (auth : Auth) (b pend : List (String × JVal))
    (server : Response) (hs : server.status_code = 200)
    (hbody : server.body = some (JVal.obj b))
    (hp : dictLookup b "pending" = some (JVal.obj pend)) :
    (∀ rn, (query_pending_jobs auth rn true server).2 = Except.ok (JVal.obj b)) ∧
    (∀ r m, r ≠ "" → dictLookup pend r = some (JVal.obj m) → (dictKeys m).Nodup →
      (query_pending_jobs auth (some r) false server).2 =
        Except.ok (JVal.obj [(r, JVal.obj m)])) ∧
    (∀ rn, (rn = none ∨ ∃ r, rn = some r ∧ r ∉ dictKeys pend) →
      (dictKeys pend).Nodup →
      (∀ p ∈ pend, ∃ m, p.2 = JVal.obj m ∧ (dictKeys m).Nodup) →
      (query_pending_jobs auth rn false server).2 = Except.ok (JVal.obj pend)) := by
  refine ⟨?_, ?_, ?_⟩
  · intro rn
    simp [query_pending_jobs, hs, hbody]
  · intro r m hr hm hmnd
    have hmem : r ∈ dictKeys pend := dictLookup_mem_keys hm
    have hbd : buildData pend [r] [] = Except.ok [(r, JVal.obj m)] := by
      simp only [buildData, hm]
      rw [dictInsertAll_self hmnd]
      simp [dictSet, buildData]
    simp [query_pending_jobs, hs, hbody, getItem, hp, hr, hmem, hbd]
  · intro rn hcase hnd hvals
    have hbd := buildData_self pend hnd hvals
    rcases hcase with rfl | ⟨r, rfl, hrmem⟩
    · simp [query_pending_jobs, hs, hbody, getItem, hp, hbd]
    · have hcond : ¬(r ≠ "" ∧ r ∈ dictKeys pend) := fun hc => hrmem hc.2
      simp [query_pending_jobs, hs, hbody, getItem, hp, hcond, hbd]

/-- C7 witness: the amended theorem applied to a concrete 200 response with one
pending repo, exercising the raw, restricted and unrestricted cases. -/
theorem pending_jobs_reduction_witness :
    (query_pending_jobs { user := "u", password := "p" } (some "repoA") true
        { status_code := 200, body := some (JVal.obj [("pending",
            JVal.obj [("repoA", JVal.obj [("rev1", JVal.arr [])])])]) }).2 =
      Except.ok (JVal.obj [("pending",
        JVal.obj [("repoA", JVal.obj [("rev1", JVal.arr [])])])]) ∧
    (query_pending_jobs { user := "u", password := "p" } (some "repoA") false
        { status_code := 200, body := some (JVal.obj [("pending",
            JVal.obj [("repoA", JVal.obj [("rev1", JVal.arr [])])])]) }).2 =
      Except.ok (JVal.obj [("repoA", JVal.obj [("rev1", JVal.arr [])])]) ∧
    (query_pending_jobs { user := "u", password := "p" } none false
        { status_code := 200, body := some (JVal.obj [("pending",
            JVal.obj [("repoA", JVal.obj [("rev1", JVal.arr [])])])]) }).2 =
      Except.ok (JVal.obj [("repoA", JVal.obj [("rev1", JVal.arr [])])]) := by
  have h := pending_jobs_reduction { user := "u", password := "p" }
    [("pending", JVal.obj [("repoA", JVal.obj [("rev1", JVal.arr [])])])]
    [("repoA", JVal.obj [("rev1", JVal.arr [])])]
    { status_code := 200, body := some (JVal.obj [("pending",
        JVal.obj [("repoA", JVal.obj [("rev1", JVal.arr [])])])]) } rfl rfl rfl
  refine ⟨h.1 (some "repoA"),
    h.2.1 "repoA" [("rev1", JVal.arr [])] (by decide) rfl (by decide),
    h.2.2 none (Or.inl rfl) (by decide) ?_⟩
  intro p hp
  rcases List.mem_singleton.mp hp with rfl
  exact ⟨[("rev1", JVal.arr [])], rfl, by decide⟩
